import Mathlib

/-!
Verification development for the Callibella interactive-document core.

This file gives a shallow embedding, in Lean 4, of the data model and the
algorithms of the Callibella client (a register-aware translation viewer):
the token/span document model (`src/bokaTypes.ts`), block segmentation and
per-register rendering (`src/views/CompilerView.tsx`), the practice phrase
assembly (`PracticeView`), the selection-preserving document merge and the
content-filter re-selection pass (`App.tsx`), the mock translation driver
(`src/mockTranslation.ts`), and the flashcard derivation
(`src/views/ReviewView.tsx`).  JavaScript records (`Record<string, Span>`)
are modelled as association lists of entries in insertion order; JavaScript
strings are modelled as Lean `String`s, with character-list implementations
of the primitive string operations so that everything evaluates by `decide`.
-/

namespace Callibella

/-- The closed register enumeration of `src/registers.ts` (`RegisterId`). -/
inductive RegisterId where
  | formal
  | literary
  | neutral
  | casual
  | colloquial
  | vulgar
deriving DecidableEq, Repr

/-- One register-specific rendering of a span (`Variant` in `src/bokaTypes.ts`). -/
structure Variant where
  id : String
  register : RegisterId
  text : String
  note : Option String := none
  difficulty : Option Nat := none
deriving DecidableEq, Repr

/-- A swappable unit of text within a document (`Span` in `src/bokaTypes.ts`). -/
structure Span where
  id : String
  sourceText : String
  variants : List Variant
  activeVariantIndex : Nat
deriving DecidableEq, Repr

/-- A document token (`DocToken` in `src/bokaTypes.ts`): either a literal text
fragment or a reference to a span by identity. -/
inductive DocToken where
  | text (value : String)
  | span (spanId : String)
deriving DecidableEq, Repr

/-- An interactive document (`InteractiveDoc` in `src/bokaTypes.ts`): the
ordered token sequence plus the span map.  The `Record<string, Span>` is
modelled as its entry list in insertion order (keys unique in practice). -/
structure InteractiveDoc where
  tokens : List DocToken
  spans : List (String × Span)
deriving DecidableEq, Repr

/-- JavaScript record lookup `spans[id]` on the entry-list model. -/
def lookupSpan (spans : List (String × Span)) (id : String) : Option Span :=
  (spans.find? (fun e => e.1 = id)).map (fun e => e.2)

/-- The canonical block separator test from `CompilerView.tsx` line 81 (and the
identical inline loops in `PracticeView` and `ReviewView.buildMaskedContext`):
`tok.type === 'text' && tok.value === '\n\n'`. -/
def isBlockSep (t : DocToken) : Bool :=
  match t with
  | .text v => v = "\n\n"
  | .span _ => false

/-- The separator token itself. -/
def blockSepToken : DocToken := .text "\n\n"

/-- Block segmentation, from `CompilerView.tsx` `docBlocks` (lines 76-90): the
left-to-right loop that closes the current block at every `"\n\n"` literal
token (consuming the separator) and always pushes the final block, rendered
here as a structural recursion computing the same list of blocks. -/
def docBlocks : List DocToken → List (List DocToken)
  | [] => [[]]
  | tok :: rest =>
    if isBlockSep tok then [] :: docBlocks rest
    else
      match docBlocks rest with
      | [] => [[tok]]
      | b :: bs => (tok :: b) :: bs

/-- Re-insertion of the separator between consecutive blocks, as in the
round-trip property of spec §8.1: concatenate the blocks with one separator
token between each pair of neighbours. -/
def rejoinBlocks : List (List DocToken) → List DocToken
  | [] => []
  | [b] => b
  | b :: b2 :: bs => b ++ blockSepToken :: rejoinBlocks (b2 :: bs)

theorem docBlocks_ne_nil (toks : List DocToken) : docBlocks toks ≠ [] := by
  cases toks with
  | nil => simp [docBlocks]
  | cons t rest =>
    simp only [docBlocks]
    by_cases h : isBlockSep t
    · simp [h]
    · simp only [h]
      cases docBlocks rest <;> simp

theorem docBlocks_length (toks : List DocToken) :
    (docBlocks toks).length = toks.countP isBlockSep + 1 := by
  induction toks with
  | nil => simp [docBlocks]
  | cons t rest ih =>
    simp only [docBlocks, List.countP_cons]
    by_cases h : isBlockSep t
    · simp [h, ih]
    · simp only [h, if_neg, Bool.false_eq_true, if_false]
      rcases hrest : docBlocks rest with _ | ⟨b, bs⟩
      · exact absurd hrest (docBlocks_ne_nil rest)
      · have := ih
        rw [hrest] at this
        simpa [h] using this

theorem docBlocks_no_sep (toks : List DocToken) :
    ∀ b ∈ docBlocks toks, ∀ t ∈ b, isBlockSep t = false := by
  induction toks with
  | nil => simp [docBlocks]
  | cons t rest ih =>
    simp only [docBlocks]
    by_cases h : isBlockSep t
    · simp only [h, if_true]
      intro b hb
      rcases List.mem_cons.mp hb with hb | hb
      · simp [hb]
      · exact ih b hb
    · simp only [h, Bool.false_eq_true, if_false]
      rcases hrest : docBlocks rest with _ | ⟨b0, bs⟩
      · exact absurd hrest (docBlocks_ne_nil rest)
      · intro b hb
        rcases List.mem_cons.mp hb with hb | hb
        · subst hb
          intro x hx
          rcases List.mem_cons.mp hx with hx | hx
          · subst hx; simpa using h
          · exact ih b0 (by rw [hrest]; exact List.mem_cons_self _ _) x hx
        · exact ih b (by rw [hrest]; exact List.mem_cons_of_mem _ hb)

theorem docBlocks_rejoin (toks : List DocToken) :
    rejoinBlocks (docBlocks toks) = toks := by
  induction toks with
  | nil => simp [docBlocks, rejoinBlocks]
  | cons t rest ih =>
    simp only [docBlocks]
    by_cases h : isBlockSep t
    · rcases hrest : docBlocks rest with _ | ⟨b, bs⟩
      · exact absurd hrest (docBlocks_ne_nil rest)
      · rw [hrest] at ih
        simp only [h, if_true, rejoinBlocks]
        have ht : t = blockSepToken := by
          cases t with
          | text v =>
            simp only [isBlockSep, decide_eq_true_eq] at h
            simp [blockSepToken, h]
          | span _ => simp [isBlockSep] at h
        rw [← ih, ht]
        simp
    · simp only [h, Bool.false_eq_true, if_false]
      rcases hrest : docBlocks rest with _ | ⟨b, bs⟩
      · exact absurd hrest (docBlocks_ne_nil rest)
      · rw [hrest] at ih
        cases bs with
        | nil => simpa [rejoinBlocks] using congrArg (t :: ·) ih
        | cons b2 bs' => simpa [rejoinBlocks] using congrArg (t :: ·) ih

/-- C4: block segmentation over a token sequence with `N` separator
occurrences yields exactly `N + 1` blocks in order, the separator token is in
no block, and re-inserting a separator between consecutive blocks reproduces
the original token sequence (so a sequence with no separator yields exactly
one block); segmentation is a pure function of the token sequence, hence
deterministic. -/
theorem c4_block_segmentation :
    (∀ toks : List DocToken,
        (docBlocks toks).length = toks.countP isBlockSep + 1)
    ∧ (∀ toks : List DocToken, ∀ b ∈ docBlocks toks, ∀ t ∈ b,
        isBlockSep t = false)
    ∧ (∀ toks : List DocToken, rejoinBlocks (docBlocks toks) = toks)
    ∧ (∀ toks : List DocToken, toks.countP isBlockSep = 0 →
        (docBlocks toks).length = 1) :=
  ⟨docBlocks_length, docBlocks_no_sep, docBlocks_rejoin,
    fun toks h => by rw [docBlocks_length, h]⟩

/-- Witness for C4 at a concrete token sequence with two separators: three
blocks, none containing the separator, and the round trip holds. -/
theorem c4_block_segmentation_witness :
    (docBlocks [DocToken.text "a", blockSepToken, DocToken.span "s1",
        blockSepToken, DocToken.text "b"]).length = 3
    ∧ rejoinBlocks (docBlocks [DocToken.text "a", blockSepToken,
        DocToken.span "s1", blockSepToken, DocToken.text "b"])
        = [DocToken.text "a", blockSepToken, DocToken.span "s1",
           blockSepToken, DocToken.text "b"]
    ∧ isBlockSep (DocToken.text "a") = false :=
  ⟨by
      have h := c4_block_segmentation.1
        [DocToken.text "a", blockSepToken, DocToken.span "s1",
         blockSepToken, DocToken.text "b"]
      rw [h]; decide,
   c4_block_segmentation.2.2.1 _,
   c4_block_segmentation.2.1
     [DocToken.text "a", blockSepToken, DocToken.span "s1",
      blockSepToken, DocToken.text "b"]
     [DocToken.text "a"] (by decide) (DocToken.text "a") (by decide)⟩

/-- The span-token case of `renderBlockForRegister` (`CompilerView.tsx` lines
102-110): a dangling reference or an empty variant list yields the ellipsis
placeholder; otherwise the JS expression
`(direct ?? neutral ?? span.variants[0])?.text ?? '…'` with
`direct = variants.find(v => v.register === register)` and
`neutral = variants.find(v => v.register === 'neutral')`. -/
def renderSpanPart (doc : InteractiveDoc) (register : RegisterId) (spanId : String) : String :=
  match lookupSpan doc.spans spanId with
  | none => "…"
  | some span =>
    if span.variants.length = 0 then "…"
    else
      let direct := span.variants.find? (fun v => v.register = register)
      let neutral := span.variants.find? (fun v => v.register = RegisterId.neutral)
      match direct <|> neutral <|> span.variants.get? 0 with
      | some v => v.text
      | none => "…"

/-- The token loop of `renderBlockForRegister` (`CompilerView.tsx` lines
96-113): literal text is appended verbatim, span tokens through
`renderSpanPart`. -/
def renderTokensForRegister (doc : InteractiveDoc) (register : RegisterId) :
    List DocToken → String
  | [] => ""
  | .text v :: rest => v ++ renderTokensForRegister doc register rest
  | .span spanId :: rest =>
      renderSpanPart doc register spanId ++ renderTokensForRegister doc register rest

/-- Per-block, per-register rendering, `CompilerView.tsx` `renderBlockForRegister`
(lines 92-114): an out-of-range block index yields the empty string. -/
def renderBlockForRegister (doc : InteractiveDoc) (blockIndex : Nat)
    (register : RegisterId) : String :=
  match (docBlocks doc.tokens).get? blockIndex with
  | none => ""
  | some block => renderTokensForRegister doc register block

/-- Resolution of one token as worded by the spec (§4.2): literal text
verbatim; for a span token the precedence (a) exact register match, else
(b) the `neutral` variant, else (c) the first variant, else (d) for a span
with zero variants the ellipsis placeholder (a dangling reference also
renders as the ellipsis). -/
def specRegisterResolve (doc : InteractiveDoc) (register : RegisterId) :
    DocToken → String
  | .text v => v
  | .span spanId =>
    match lookupSpan doc.spans spanId with
    | none => "…"
    | some span =>
      match span.variants.find? (fun v => v.register = register) with
      | some v => v.text
      | none =>
        match span.variants.find? (fun v => v.register = RegisterId.neutral) with
        | some v => v.text
        | none =>
          match span.variants with
          | v :: _ => v.text
          | [] => "…"

theorem renderSpanPart_eq_spec (doc : InteractiveDoc) (register : RegisterId)
    (spanId : String) :
    renderSpanPart doc register spanId = specRegisterResolve doc register (.span spanId) := by
  cases hl : lookupSpan doc.spans spanId with
  | none => simp [renderSpanPart, specRegisterResolve, hl]
  | some span =>
    cases hv : span.variants with
    | nil => simp [renderSpanPart, specRegisterResolve, hl, hv]
    | cons v0 vs =>
      cases hd : (v0 :: vs).find? (fun v => v.register = register) with
      | some v =>
        simp [renderSpanPart, specRegisterResolve, hl, hv, hd, Option.orElse]
      | none =>
        cases hn : (v0 :: vs).find? (fun v => v.register = RegisterId.neutral) with
        | some v =>
          simp [renderSpanPart, specRegisterResolve, hl, hv, hd, hn, Option.orElse]
        | none =>
          simp [renderSpanPart, specRegisterResolve, hl, hv, hd, hn, Option.orElse]

/-- Concrete document for the C2 examples: span `s` with variants
`[{neutral, "a"}, {formal, "B"}]` and span `e` with zero variants. -/
def c2ExampleDoc : InteractiveDoc :=
  { tokens := [DocToken.span "s", blockSepToken, DocToken.span "e"]
    spans :=
      [("s", { id := "s", sourceText := "src"
               variants :=
                 [{ id := "va", register := RegisterId.neutral, text := "a" },
                  { id := "vB", register := RegisterId.formal, text := "B" }]
               activeVariantIndex := 0 }),
       ("e", { id := "e", sourceText := "esrc", variants := []
               activeVariantIndex := 0 })] }

/-- C2: per-register rendering concatenates, token by token, literal text
verbatim and span tokens resolved by the precedence exact-register match,
else neutral, else first variant, else (zero variants) the ellipsis
placeholder; concretely, a span with variants `[{neutral,"a"},{formal,"B"}]`
renders as `"a"` for the `casual` register and `"B"` for `formal`, and an
empty-variant span renders as the ellipsis for every requested register. -/
theorem c2_register_fallback :
    (∀ (doc : InteractiveDoc) (register : RegisterId) (toks : List DocToken),
        renderTokensForRegister doc register toks
          = (toks.map (specRegisterResolve doc register)).foldr (· ++ ·) "")
    ∧ renderBlockForRegister c2ExampleDoc 0 RegisterId.casual = "a"
    ∧ renderBlockForRegister c2ExampleDoc 0 RegisterId.formal = "B"
    ∧ (∀ register : RegisterId, renderBlockForRegister c2ExampleDoc 1 register = "…") := by
  refine ⟨?_, ?_, ?_, ?_⟩
  · intro doc register toks
    induction toks with
    | nil => rfl
    | cons t rest ih =>
      cases t with
      | text v => simp [renderTokensForRegister, ih, specRegisterResolve]
      | span spanId =>
        simp [renderTokensForRegister, ih, renderSpanPart_eq_spec]
  · decide
  · decide
  · intro register; cases register <;> decide

/-- The interactive span label of `CompilerView.tsx` (lines 310-312):
`span?.variants[active]?.text ?? span?.sourceText ?? '…'` with
`active = span?.activeVariantIndex ?? 0`. -/
def compilerSpanLabel (doc : InteractiveDoc) (spanId : String) : String :=
  let spanO := lookupSpan doc.spans spanId
  let active := (spanO.map Span.activeVariantIndex).getD 0
  ((spanO.bind (fun s => (s.variants.get? active).map Variant.text))
      <|> spanO.map Span.sourceText).getD "…"

/-- Active-variant resolution as worded by the spec (§4.3 of the claims /
spec §4.2 "Active-variant resolution"): use `activeVariantIndex` directly and
fall back to the span's source text, then to the ellipsis placeholder, when
the span or its variant at that index is absent. -/
def specActiveResolve (doc : InteractiveDoc) (spanId : String) : String :=
  match lookupSpan doc.spans spanId with
  | none => "…"
  | some span =>
    match span.variants.get? span.activeVariantIndex with
    | some v => v.text
    | none => span.sourceText

/-- The span-token text resolution of the practice phrase assembly
(`PracticeView`, `src/unnamed/part_001` lines 77-84): a missing span or an
empty variant list contributes `"..."`; otherwise
`(span.variants[span.activeVariantIndex] ?? span.variants[0])?.text ?? '...'`. -/
def practiceSpanText (doc : InteractiveDoc) (spanId : String) : String :=
  match lookupSpan doc.spans spanId with
  | none => "..."
  | some span =>
    if span.variants.length = 0 then "..."
    else
      match span.variants.get? span.activeVariantIndex <|> span.variants.get? 0 with
      | some v => v.text
      | none => "..."

/-- The practice phrase `text` accumulation over one block
(`src/unnamed/part_001` lines 69-86, the `text` component). -/
def practicePhraseText (doc : InteractiveDoc) : List DocToken → String
  | [] => ""
  | .text v :: rest => v ++ practicePhraseText doc rest
  | .span spanId :: rest => practiceSpanText doc spanId ++ practicePhraseText doc rest

/-- Concrete document refuting C7 at the practice site: span `s` has source
text `"src"`, a single variant `"zero"`, and an out-of-range active index 5. -/
def c7ExampleDoc : InteractiveDoc :=
  { tokens := [DocToken.span "s"]
    spans :=
      [("s", { id := "s", sourceText := "src"
               variants := [{ id := "v0", register := RegisterId.neutral, text := "zero" }]
               activeVariantIndex := 5 })] }

/-- C7 counterexample: the claim says every active-variant resolution site
falls back to the span's source text, then the ellipsis, when the variant at
the active index is absent; but the practice phrase assembly falls back to
the span's first variant instead: for a span with source text `"src"`, one
variant `"zero"` and active index 5, practice shows `"zero"` while the
claimed chain yields `"src"`. -/
theorem c7_active_resolution_counterexample :
    practiceSpanText c7ExampleDoc "s" = "zero"
    ∧ specActiveResolve c7ExampleDoc "s" = "src"
    ∧ practiceSpanText c7ExampleDoc "s" ≠ specActiveResolve c7ExampleDoc "s" := by
  decide

/-- C7 as amended: the interactive Compiler label resolves through
`activeVariantIndex` with fallback to source text, then the ellipsis, exactly
as the spec words it; the practice site resolves through `activeVariantIndex`
with fallback to the span's first variant, then the placeholder `"..."`
(also used for a missing span or an empty variant list); both resolutions are
total functions into `String`, so no malformed span can make them throw. -/
theorem c7_active_resolution_amended :
    (∀ (doc : InteractiveDoc) (spanId : String),
        compilerSpanLabel doc spanId = specActiveResolve doc spanId)
    ∧ (∀ (doc : InteractiveDoc) (spanId : String) (span : Span) (v : Variant),
        lookupSpan doc.spans spanId = some span →
        span.variants.get? span.activeVariantIndex = some v →
        practiceSpanText doc spanId = v.text)
    ∧ (∀ (doc : InteractiveDoc) (spanId : String) (span : Span) (v0 : Variant)
        (vs : List Variant),
        lookupSpan doc.spans spanId = some span →
        span.variants = v0 :: vs →
        span.variants.get? span.activeVariantIndex = none →
        practiceSpanText doc spanId = v0.text)
    ∧ (∀ (doc : InteractiveDoc) (spanId : String),
        lookupSpan doc.spans spanId = none →
        practiceSpanText doc spanId = "..." ∧ compilerSpanLabel doc spanId = "…")
    ∧ (∀ (doc : InteractiveDoc) (spanId : String) (span : Span),
        lookupSpan doc.spans spanId = some span →
        span.variants = [] →
        practiceSpanText doc spanId = "..." ∧ compilerSpanLabel doc spanId = span.sourceText) := by
  refine ⟨?_, ?_, ?_, ?_, ?_⟩
  · intro doc spanId
    cases hl : lookupSpan doc.spans spanId with
    | none => simp [compilerSpanLabel, specActiveResolve, hl]
    | some span =>
      cases hv : span.variants.get? span.activeVariantIndex with
      | none =>
        simp only [List.get?_eq_getElem?] at hv
        simp [compilerSpanLabel, specActiveResolve, hl, hv, Option.orElse]
      | some v =>
        simp only [List.get?_eq_getElem?] at hv
        simp [compilerSpanLabel, specActiveResolve, hl, hv, Option.orElse]
  · intro doc spanId span v hl hv
    have hne : span.variants.length ≠ 0 := by
      intro h0
      rw [List.length_eq_zero] at h0
      rw [h0] at hv
      simp at hv
    simp only [List.get?_eq_getElem?] at hv
    simp [practiceSpanText, hl, hne, hv, Option.orElse]
  · intro doc spanId span v0 vs hl hv hnone
    have hne : span.variants.length ≠ 0 := by rw [hv]; simp
    simp only [List.get?_eq_getElem?] at hnone
    rw [hv] at hnone
    simp [practiceSpanText, hl, hne, hnone, hv, Option.orElse]
  · intro doc spanId hl
    exact ⟨by simp [practiceSpanText, hl], by simp [compilerSpanLabel, hl]⟩
  · intro doc spanId span hl hv
    constructor
    · simp [practiceSpanText, hl, hv]
    · simp [compilerSpanLabel, hl, hv, Option.orElse]

/-- Witness for the amended C7 at concrete inputs: the compiler label agrees
with the spec chain on `c7ExampleDoc` (out-of-range index resolves to source
text `"src"`), the practice text resolves an in-range index directly on
`c2ExampleDoc`, and the out-of-range practice fallback yields the first
variant on `c7ExampleDoc`. -/
theorem c7_active_resolution_amended_witness :
    compilerSpanLabel c7ExampleDoc "s" = specActiveResolve c7ExampleDoc "s"
    ∧ practiceSpanText c2ExampleDoc "s" = "a"
    ∧ practiceSpanText c7ExampleDoc "s" = "zero"
    ∧ practiceSpanText c2ExampleDoc "e" = "..." :=
  ⟨c7_active_resolution_amended.1 c7ExampleDoc "s",
   c7_active_resolution_amended.2.1 c2ExampleDoc "s"
     { id := "s", sourceText := "src"
       variants :=
         [{ id := "va", register := RegisterId.neutral, text := "a" },
          { id := "vB", register := RegisterId.formal, text := "B" }]
       activeVariantIndex := 0 }
     { id := "va", register := RegisterId.neutral, text := "a" }
     (by decide) (by decide),
   c7_active_resolution_amended.2.2.1 c7ExampleDoc "s"
     { id := "s", sourceText := "src"
       variants := [{ id := "v0", register := RegisterId.neutral, text := "zero" }]
       activeVariantIndex := 5 }
     { id := "v0", register := RegisterId.neutral, text := "zero" } []
     (by decide) (by decide) (by decide),
   (c7_active_resolution_amended.2.2.2.2 c2ExampleDoc "e"
     { id := "e", sourceText := "esrc", variants := [], activeVariantIndex := 0 }
     (by decide) (by decide)).1⟩

/-- The selection-preserving document merge of `App` (`src/unnamed/part_005`,
`makeTranslationCallbacks.onDoc`, lines 348-356): start from the incoming
document's span entries (`{...incoming.spans}`), and for every span identity
that also exists in the previous document, keep the incoming span but carry
the previous document's `activeVariantIndex` over; the token sequence is the
incoming one (`{...incoming, spans: nextSpans}`). -/
def mergeIncomingDoc (prev incoming : InteractiveDoc) : InteractiveDoc :=
  { tokens := incoming.tokens
    spans := incoming.spans.map (fun e =>
      match lookupSpan prev.spans e.1 with
      | some prevSpan => (e.1, { e.2 with activeVariantIndex := prevSpan.activeVariantIndex })
      | none => e) }

theorem lookupSpan_map_keyed (g : String → Span → Span) (l : List (String × Span))
    (id : String) :
    lookupSpan (l.map (fun e => (e.1, g e.1 e.2))) id
      = (lookupSpan l id).map (g id) := by
  induction l with
  | nil => rfl
  | cons e l ih =>
    by_cases h : e.1 = id
    · subst h
      simp [lookupSpan, List.find?_cons]
    · simp only [lookupSpan, List.map_cons, List.find?_cons, h, decide_False] at ih ⊢
      simpa [lookupSpan] using ih

theorem lookupSpan_mergeIncomingDoc (prev incoming : InteractiveDoc) (id : String) :
    lookupSpan (mergeIncomingDoc prev incoming).spans id =
      (lookupSpan incoming.spans id).map (fun s =>
        match lookupSpan prev.spans id with
        | some p => { s with activeVariantIndex := p.activeVariantIndex }
        | none => s) := by
  have hfun : (fun (e : String × Span) =>
        match lookupSpan prev.spans e.1 with
        | some prevSpan => (e.1, { e.2 with activeVariantIndex := prevSpan.activeVariantIndex })
        | none => e)
      = (fun e => (e.1, (fun k s =>
          match lookupSpan prev.spans k with
          | some p => { s with activeVariantIndex := p.activeVariantIndex }
          | none => s) e.1 e.2)) := by
    funext e
    cases h : lookupSpan prev.spans e.1 with
    | none => simp [h]
    | some p => simp [h]
  show lookupSpan (incoming.spans.map _) id = _
  rw [hfun]
  exact lookupSpan_map_keyed
    (fun k s =>
      match lookupSpan prev.spans k with
      | some p => { s with activeVariantIndex := p.activeVariantIndex }
      | none => s) incoming.spans id

/-- Previous document for the C1/C10 examples: the user has selected variant
index 2 on span `s1`; span `s2` exists only here. -/
def c1PrevDoc : InteractiveDoc :=
  { tokens := [DocToken.span "s1", DocToken.span "s2"]
    spans :=
      [("s1", { id := "s1", sourceText := "one"
                variants :=
                  [{ id := "s1-n", register := RegisterId.neutral, text := "n1" },
                   { id := "s1-f", register := RegisterId.formal, text := "f1" },
                   { id := "s1-c", register := RegisterId.casual, text := "c1" }]
                activeVariantIndex := 2 }),
       ("s2", { id := "s2", sourceText := "two"
                variants := [{ id := "s2-n", register := RegisterId.neutral, text := "n2" }]
                activeVariantIndex := 0 })] }

/-- Incoming document for the C1 example: the backend re-sends `s1` with the
default index 0 and introduces a new span `s3` with default index 0. -/
def c1IncomingDoc : InteractiveDoc :=
  { tokens := [DocToken.span "s1", DocToken.span "s3"]
    spans :=
      [("s1", { id := "s1", sourceText := "one"
                variants :=
                  [{ id := "s1-n", register := RegisterId.neutral, text := "n1x" },
                   { id := "s1-f", register := RegisterId.formal, text := "f1x" },
                   { id := "s1-c", register := RegisterId.casual, text := "c1x" }]
                activeVariantIndex := 0 }),
       ("s3", { id := "s3", sourceText := "three"
                variants := [{ id := "s3-n", register := RegisterId.neutral, text := "n3" }]
                activeVariantIndex := 0 })] }

/-- C1: merging a freshly produced document into the previous one carries, for
every span identity present in both, the previous `activeVariantIndex` onto
the incoming span (discarding the incoming default); spans new to the
incoming document keep their own index (the lookup equation makes both facts
precise, and also shows that spans absent from the incoming document are
dropped, since a `none` incoming lookup maps to `none`); concretely, the
user-selected index 2 on `s1` survives an incoming copy of `s1` with index 0,
the new span `s3` keeps its own index, and the vanished span `s2` is gone. -/
theorem c1_merge_preserves_selection :
    (∀ (prev incoming : InteractiveDoc) (id : String),
        lookupSpan (mergeIncomingDoc prev incoming).spans id =
          (lookupSpan incoming.spans id).map (fun s =>
            match lookupSpan prev.spans id with
            | some p => { s with activeVariantIndex := p.activeVariantIndex }
            | none => s))
    ∧ (lookupSpan (mergeIncomingDoc c1PrevDoc c1IncomingDoc).spans "s1").map
        Span.activeVariantIndex = some 2
    ∧ (lookupSpan (mergeIncomingDoc c1PrevDoc c1IncomingDoc).spans "s1").map
        Span.variants = (lookupSpan c1IncomingDoc.spans "s1").map Span.variants
    ∧ (lookupSpan (mergeIncomingDoc c1PrevDoc c1IncomingDoc).spans "s3").map
        Span.activeVariantIndex = some 0
    ∧ lookupSpan (mergeIncomingDoc c1PrevDoc c1IncomingDoc).spans "s2" = none
    ∧ (mergeIncomingDoc c1PrevDoc c1IncomingDoc).tokens = c1IncomingDoc.tokens := by
  refine ⟨lookupSpan_mergeIncomingDoc, ?_, ?_, ?_, ?_, ?_⟩ <;> decide

/-- C10: the merge copies the previous index verbatim without clamping: if a
span identity is present in both documents and the previous index is at least
the length of the incoming span's variant list, the merged document contains
that span with the out-of-range index, violating
`0 <= activeVariantIndex < variants.length`. -/
theorem c10_merge_index_not_clamped (prev incoming : InteractiveDoc) (id : String)
    (sInc sPrev : Span)
    (h1 : lookupSpan incoming.spans id = some sInc)
    (h2 : lookupSpan prev.spans id = some sPrev)
    (h3 : sInc.variants.length ≤ sPrev.activeVariantIndex) :
    ∃ s : Span, lookupSpan (mergeIncomingDoc prev incoming).spans id = some s
      ∧ s.activeVariantIndex = sPrev.activeVariantIndex
      ∧ s.variants = sInc.variants
      ∧ ¬ s.activeVariantIndex < s.variants.length := by
  refine ⟨{ sInc with activeVariantIndex := sPrev.activeVariantIndex }, ?_, rfl, rfl, ?_⟩
  · rw [lookupSpan_mergeIncomingDoc, h1, h2]
    rfl
  · simpa using Nat.not_lt.mpr h3

/-- Incoming document for the C10 witness: `s1` re-sent with only one variant,
while the previous selection index is 2. -/
def c10IncomingDoc : InteractiveDoc :=
  { tokens := [DocToken.span "s1"]
    spans :=
      [("s1", { id := "s1", sourceText := "one"
                variants := [{ id := "s1-n", register := RegisterId.neutral, text := "n1x" }]
                activeVariantIndex := 0 })] }

/-- Witness for C10: merging `c10IncomingDoc` (1 variant on `s1`) over
`c1PrevDoc` (selected index 2 on `s1`) produces an `s1` whose index 2 is out
of range for its 1-element variant list. -/
theorem c10_merge_index_not_clamped_witness :
    ∃ s : Span, lookupSpan (mergeIncomingDoc c1PrevDoc c10IncomingDoc).spans "s1" = some s
      ∧ s.activeVariantIndex = 2
      ∧ s.variants = [{ id := "s1-n", register := RegisterId.neutral, text := "n1x" }]
      ∧ ¬ s.activeVariantIndex < s.variants.length :=
  c10_merge_index_not_clamped c1PrevDoc c10IncomingDoc "s1"
    { id := "s1", sourceText := "one"
      variants := [{ id := "s1-n", register := RegisterId.neutral, text := "n1x" }]
      activeVariantIndex := 0 }
    { id := "s1", sourceText := "one"
      variants :=
        [{ id := "s1-n", register := RegisterId.neutral, text := "n1" },
         { id := "s1-f", register := RegisterId.formal, text := "f1" },
         { id := "s1-c", register := RegisterId.casual, text := "c1" }]
      activeVariantIndex := 2 }
    (by decide) (by decide) (by decide)

/-- The per-span update of the content-filter pass (`src/unnamed/part_005`
lines 255-261): if the variant at the active index exists and has register
`vulgar`, and some variant has a non-vulgar register, re-select the first such
index; otherwise the span is left as it is (including spans whose active
index is out of range, for which `active?.register !== 'vulgar'` holds). -/
def filterSpanReselect (s : Span) : Span :=
  match s.variants.get? s.activeVariantIndex with
  | none => s
  | some active =>
    if active.register = RegisterId.vulgar then
      match s.variants.findIdx? (fun v => v.register ≠ RegisterId.vulgar) with
      | some nextIndex => { s with activeVariantIndex := nextIndex }
      | none => s
    else s

/-- Whether the content-filter pass touches a span (the condition under which
the loop body of `src/unnamed/part_005` lines 255-262 sets `changed`). -/
def spanFilterAffected (s : Span) : Bool :=
  (match s.variants.get? s.activeVariantIndex with
   | some active => active.register = RegisterId.vulgar
   | none => false)
  && (s.variants.findIdx? (fun v => v.register ≠ RegisterId.vulgar)).isSome

/-- The content-filter re-selection pass over a document (`src/unnamed/part_005`
lines 248-270): when no span is affected the previous document object is
returned unchanged (`if (!changed) return prev`); otherwise the span map is
rebuilt with the affected spans re-selected. -/
def applyContentFilter (d : InteractiveDoc) : InteractiveDoc :=
  if d.spans.any (fun e => spanFilterAffected e.2) then
    { d with spans := d.spans.map (fun e => (e.1, filterSpanReselect e.2)) }
  else d

theorem filterSpanReselect_some (s : Span) (active : Variant)
    (hv : s.variants.get? s.activeVariantIndex = some active) :
    filterSpanReselect s
      = (if active.register = RegisterId.vulgar then
          match s.variants.findIdx? (fun v => v.register ≠ RegisterId.vulgar) with
          | some nextIndex => { s with activeVariantIndex := nextIndex }
          | none => s
        else s) := by
  unfold filterSpanReselect
  rw [hv]

theorem spanFilterAffected_some (s : Span) (active : Variant)
    (hv : s.variants.get? s.activeVariantIndex = some active) :
    spanFilterAffected s
      = ((active.register = RegisterId.vulgar : Bool)
          && (s.variants.findIdx? (fun v => v.register ≠ RegisterId.vulgar)).isSome) := by
  unfold spanFilterAffected
  rw [hv]

theorem filterSpanReselect_of_not_affected (s : Span)
    (h : spanFilterAffected s = false) : filterSpanReselect s = s := by
  cases hv : s.variants.get? s.activeVariantIndex with
  | none => unfold filterSpanReselect; rw [hv]
  | some active =>
    rw [filterSpanReselect_some s active hv]
    by_cases hr : active.register = RegisterId.vulgar
    · cases hf : s.variants.findIdx? (fun v => v.register ≠ RegisterId.vulgar) with
      | none => rw [if_pos hr]
      | some j =>
        exfalso
        rw [spanFilterAffected_some s active hv, hf] at h
        simp [hr] at h
    · rw [if_neg hr]

theorem findIdx?_reselect_target {l : List Variant} {j : Nat}
    (h : l.findIdx? (fun v => v.register ≠ RegisterId.vulgar) = some j) :
    ∃ v, l.get? j = some v ∧ v.register ≠ RegisterId.vulgar := by
  rw [List.findIdx?_eq_some_iff_findIdx_eq] at h
  obtain ⟨hlt, hj⟩ := h
  subst hj
  refine ⟨l.get ⟨_, hlt⟩, ?_, ?_⟩
  · simp [List.get?_eq_getElem?, List.getElem?_eq_getElem hlt]
  · have := @List.findIdx_getElem _ (fun v => decide (v.register ≠ RegisterId.vulgar)) l hlt
    simpa using this

theorem spanFilterAffected_set_index (s : Span) (j : Nat) :
    spanFilterAffected { s with activeVariantIndex := j }
      = ((match s.variants.get? j with
          | some active => (active.register = RegisterId.vulgar : Bool)
          | none => false)
         && (s.variants.findIdx? (fun v => v.register ≠ RegisterId.vulgar)).isSome) := rfl

theorem filterSpanReselect_affected (s : Span) (active : Variant) (j : Nat)
    (hv : s.variants.get? s.activeVariantIndex = some active)
    (hr : active.register = RegisterId.vulgar)
    (hf : s.variants.findIdx? (fun v => v.register ≠ RegisterId.vulgar) = some j) :
    filterSpanReselect s = { s with activeVariantIndex := j } := by
  rw [filterSpanReselect_some s active hv, if_pos hr, hf]

theorem spanFilterAffected_reselect (s : Span) :
    spanFilterAffected (filterSpanReselect s) = false := by
  by_cases h : spanFilterAffected s = true
  · cases hv : s.variants.get? s.activeVariantIndex with
    | none => unfold spanFilterAffected at h; rw [hv] at h; simp at h
    | some active =>
      rw [spanFilterAffected_some s active hv] at h
      simp only [Bool.and_eq_true, decide_eq_true_eq, Option.isSome_iff_exists] at h
      obtain ⟨hr, j, hf⟩ := h
      obtain ⟨v, hget, hnv⟩ := findIdx?_reselect_target hf
      rw [filterSpanReselect_affected s active j hv hr hf,
        spanFilterAffected_set_index, hget]
      simp [hnv]
  · rw [filterSpanReselect_of_not_affected s (Bool.eq_false_iff.mpr h)]
    exact Bool.eq_false_iff.mpr h

theorem lookupSpan_applyContentFilter (d : InteractiveDoc) (id : String) :
    lookupSpan (applyContentFilter d).spans id
      = (lookupSpan d.spans id).map filterSpanReselect := by
  unfold applyContentFilter
  by_cases hany : d.spans.any (fun e => spanFilterAffected e.2)
  · rw [if_pos hany]
    exact lookupSpan_map_keyed (fun _ s => filterSpanReselect s) d.spans id
  · rw [if_neg hany]
    cases hl : lookupSpan d.spans id with
    | none => rfl
    | some s =>
      have hmem : (∃ e ∈ d.spans, e.1 = id ∧ e.2 = s) := by
        unfold lookupSpan at hl
        cases hf : d.spans.find? (fun e => e.1 = id) with
        | none => rw [hf] at hl; simp at hl
        | some e =>
          rw [hf] at hl
          simp only [Option.map_some', Option.some.injEq] at hl
          exact ⟨e, List.mem_of_find?_eq_some hf,
            by simpa using List.find?_some hf, hl⟩
      obtain ⟨e, he, hkey, hval⟩ := hmem
      have hnot : spanFilterAffected e.2 = false := by
        rw [List.any_eq_true] at hany
        push_neg at hany
        have := hany e he
        simpa using this
      rw [hval] at hnot
      simp [filterSpanReselect_of_not_affected s hnot]

theorem applyContentFilter_idempotent (d : InteractiveDoc) :
    applyContentFilter (applyContentFilter d) = applyContentFilter d := by
  by_cases hany : d.spans.any (fun e => spanFilterAffected e.2)
  · have hd : applyContentFilter d
        = { d with spans := d.spans.map (fun e => (e.1, filterSpanReselect e.2)) } := by
      unfold applyContentFilter
      rw [if_pos hany]
    rw [hd]
    unfold applyContentFilter
    rw [if_neg]
    simp only [List.any_map, List.any_eq_true, Function.comp]
    rintro ⟨e, -, habs⟩
    rw [spanFilterAffected_reselect] at habs
    exact Bool.false_ne_true habs
  · have hd : applyContentFilter d = d := by
      unfold applyContentFilter
      rw [if_neg hany]
    rw [hd, hd]

/-- C3: the content-filter pass re-selects, for every span whose active
variant has register `vulgar` and which has at least one non-vulgar variant,
the index of the first non-vulgar variant; every other span — in particular a
span with no non-vulgar variant — is left completely unchanged; the pass is
idempotent, and when no span is affected it returns the document unchanged. -/
theorem c3_content_filter :
    (∀ (d : InteractiveDoc) (id : String) (span : Span) (active : Variant) (j : Nat),
        lookupSpan d.spans id = some span →
        span.variants.get? span.activeVariantIndex = some active →
        active.register = RegisterId.vulgar →
        span.variants.findIdx? (fun v => v.register ≠ RegisterId.vulgar) = some j →
        lookupSpan (applyContentFilter d).spans id
          = some { span with activeVariantIndex := j })
    ∧ (∀ (d : InteractiveDoc) (id : String) (span : Span),
        lookupSpan d.spans id = some span →
        spanFilterAffected span = false →
        lookupSpan (applyContentFilter d).spans id = some span)
    ∧ (∀ span : Span,
        span.variants.findIdx? (fun v => v.register ≠ RegisterId.vulgar) = none →
        filterSpanReselect span = span)
    ∧ (∀ d : InteractiveDoc, applyContentFilter (applyContentFilter d) = applyContentFilter d)
    ∧ (∀ d : InteractiveDoc,
        (∀ e ∈ d.spans, spanFilterAffected e.2 = false) → applyContentFilter d = d) := by
  refine ⟨?_, ?_, ?_, applyContentFilter_idempotent, ?_⟩
  · intro d id span active j hl hv hr hf
    rw [lookupSpan_applyContentFilter, hl]
    simp only [Option.map_some']
    rw [filterSpanReselect_affected span active j hv hr hf]
  · intro d id span hl hna
    rw [lookupSpan_applyContentFilter, hl]
    simp [filterSpanReselect_of_not_affected span hna]
  · intro span hf
    cases hv : span.variants.get? span.activeVariantIndex with
    | none => unfold filterSpanReselect; rw [hv]
    | some active =>
      rw [filterSpanReselect_some span active hv]
      by_cases hr : active.register = RegisterId.vulgar
      · rw [if_pos hr, hf]
      · rw [if_neg hr]
  · intro d hall
    unfold applyContentFilter
    rw [if_neg]
    simp only [List.any_eq_true]
    rintro ⟨e, he, habs⟩
    rw [hall e he] at habs
    exact Bool.false_ne_true habs

/-- Document for the C3 witness: span `sv` is showing a vulgar variant and has
a non-vulgar alternative at index 1; span `sw` has only a vulgar variant. -/
def c3ExampleDoc : InteractiveDoc :=
  { tokens := [DocToken.span "sv", DocToken.span "sw"]
    spans :=
      [("sv", { id := "sv", sourceText := "v"
                variants :=
                  [{ id := "sv-x", register := RegisterId.vulgar, text := "x" },
                   { id := "sv-n", register := RegisterId.neutral, text := "ok" }]
                activeVariantIndex := 0 }),
       ("sw", { id := "sw", sourceText := "w"
                variants := [{ id := "sw-x", register := RegisterId.vulgar, text := "x" }]
                activeVariantIndex := 0 })] }

/-- Witness for C3 at `c3ExampleDoc`: `sv` is re-selected to index 1; `sw`,
which has no non-vulgar variant, is unchanged; the pass is idempotent on the
example; and a document whose spans are all unaffected is returned unchanged. -/
theorem c3_content_filter_witness :
    lookupSpan (applyContentFilter c3ExampleDoc).spans "sv"
      = some { id := "sv", sourceText := "v"
               variants :=
                 [{ id := "sv-x", register := RegisterId.vulgar, text := "x" },
                  { id := "sv-n", register := RegisterId.neutral, text := "ok" }]
               activeVariantIndex := 1 }
    ∧ lookupSpan (applyContentFilter c3ExampleDoc).spans "sw"
      = some { id := "sw", sourceText := "w"
               variants := [{ id := "sw-x", register := RegisterId.vulgar, text := "x" }]
               activeVariantIndex := 0 }
    ∧ applyContentFilter (applyContentFilter c3ExampleDoc) = applyContentFilter c3ExampleDoc
    ∧ applyContentFilter c2ExampleDoc = c2ExampleDoc :=
  ⟨c3_content_filter.1 c3ExampleDoc "sv"
     { id := "sv", sourceText := "v"
       variants :=
         [{ id := "sv-x", register := RegisterId.vulgar, text := "x" },
          { id := "sv-n", register := RegisterId.neutral, text := "ok" }]
       activeVariantIndex := 0 }
     { id := "sv-x", register := RegisterId.vulgar, text := "x" } 1
     (by decide) (by decide) (by decide) (by decide),
   c3_content_filter.2.1 c3ExampleDoc "sw"
     { id := "sw", sourceText := "w"
       variants := [{ id := "sw-x", register := RegisterId.vulgar, text := "x" }]
       activeVariantIndex := 0 }
     (by decide) (by decide),
   c3_content_filter.2.2.2.1 c3ExampleDoc,
   c3_content_filter.2.2.2.2 c2ExampleDoc (by decide)⟩

/-- JavaScript `String.prototype.trim`, modelled on the character list (the
built-in Lean `String.trim` does not reduce in the kernel). -/
def jsTrim (s : String) : String :=
  ⟨((s.data.dropWhile Char.isWhitespace).reverse.dropWhile Char.isWhitespace).reverse⟩

/-- JavaScript `toLowerCase`, modelled character-wise. -/
def jsLower (s : String) : String := ⟨s.data.map Char.toLower⟩

/-- The JS `base[0].toUpperCase() + base.slice(1)` of `make_variants`,
modelled character-wise (multi-character uppercasings are out of scope). -/
def jsCapitalize (s : String) : String :=
  match s.data with
  | [] => s
  | c :: rest => ⟨Char.toUpper c :: rest⟩

/-- The sentence-final characters of the segmentation regex `(?<=[.!?])`. -/
def isSentenceEnd (c : Char) : Bool := c == '.' || c == '!' || c == '?'

/-- The split of `split_into_segments` (`src/mockTranslation.ts` line 9):
`t.split(/(?<=[.!?])\s+/)` — a match is a maximal whitespace run whose
preceding character is `.`, `!` or `?`; `acc` holds the current piece in
reverse, so its head is the previously consumed character.  The separator
whitespace is carried (as the prefix of the next piece) instead of dropped,
which leaves the pieces identical after the `trim` that `split_into_segments`
applies to each of them: further whitespace of the run never matches the
lookbehind, since the preceding character is then whitespace. -/
def roughSplit (acc : List Char) : List Char → List (List Char)
  | [] => [acc.reverse]
  | c :: rest =>
    if c.isWhitespace && (match acc with | p :: _ => isSentenceEnd p | [] => false) then
      acc.reverse :: roughSplit [c] rest
    else
      roughSplit (c :: acc) rest

/-- Sentence segmentation of the mock translator
(`src/mockTranslation.ts` `split_into_segments`, lines 4-15): trim; empty
input yields no segments; otherwise split at whitespace following `.!?`,
trim the pieces and drop the empty ones, falling back to the whole text. -/
def split_into_segments (text : String) : List String :=
  let t := jsTrim text
  if t = "" then []
  else
    let rough := ((roughSplit [] t.data).map (fun l => jsTrim ⟨l⟩)).filter (fun s => ¬ s = "")
    if rough.length > 0 then rough else [t]

/-- A segment stage (`SegmentStage` in `src/bokaTypes.ts`). -/
inductive SegmentStage where
  | pending
  | ready
  | error
deriving DecidableEq, Repr

/-- One translation segment (`TranslationSegment` in `src/bokaTypes.ts`). -/
structure TranslationSegment where
  id : String
  source : String
  baseText : Option String := none
  baseStage : SegmentStage
  spanStage : SegmentStage
  variantCount : Nat
deriving DecidableEq, Repr

/-- A translation job (`TranslationJob` in `src/bokaTypes.ts`). -/
structure TranslationJob where
  id : String
  segments : List TranslationSegment
  ready : Bool
deriving DecidableEq, Repr

/-- The initial segment list of `start_mock_translation`
(`src/mockTranslation.ts` lines 79-86): ids `seg-1`, `seg-2`, ..., everything
pending.  The index argument mirrors the `map` index. -/
def initial_segments : Nat → List String → List TranslationSegment
  | _, [] => []
  | i, s :: rest =>
    { id := "seg-" ++ toString (i + 1), source := s, baseText := none
      baseStage := .pending, spanStage := .pending, variantCount := 0 }
      :: initial_segments (i + 1) rest

/-- The mutation of one base timer callback (`src/mockTranslation.ts` lines
115-122): segment `i` (if it exists) gets `baseStage = 'ready'` and
`baseText = «source»`; all other segments are copied unchanged. -/
def set_base_ready : Nat → List TranslationSegment → List TranslationSegment
  | _, [] => []
  | 0, s :: rest =>
    { s with baseStage := .ready, baseText := some ("«" ++ s.source ++ "»") } :: rest
  | Nat.succ k, s :: rest => s :: set_base_ready k rest

/-- One base timer step on the whole job. -/
def base_step (i : Nat) (j : TranslationJob) : TranslationJob :=
  { j with segments := set_base_ready i j.segments }

/-- The job mutation of the final timer callback (`src/mockTranslation.ts`
lines 128-134): every segment gets `spanStage = 'ready'` and
`variantCount = 6`, and the job becomes `ready`. -/
def final_update (j : TranslationJob) : TranslationJob :=
  { j with
    segments := j.segments.map (fun s => { s with spanStage := .ready, variantCount := 6 })
    ready := true }

/-- Run the base timers in order, returning the final job state and the list
of job values emitted to `onJob` along the way. -/
def run_bases (j : TranslationJob) : List Nat → TranslationJob × List TranslationJob
  | [] => (j, [])
  | i :: rest =>
    let j2 := base_step i j
    let p := run_bases j2 rest
    (p.1, j2 :: p.2)

/-- The sequence of `TranslationJob` values emitted to `onJob` by
`start_mock_translation` (in timer order: the initial synchronous emission,
one per base timer, then the final update), as a function of the story text
and of `Date.now()` (used only for the job id). -/
def emitted_jobs (now : Nat) (storyText : String) : List TranslationJob :=
  let seg_texts := split_into_segments storyText
  let j0 : TranslationJob :=
    { id := "job-" ++ toString now, segments := initial_segments 0 seg_texts, ready := false }
  let p := run_bases j0 (List.range seg_texts.length)
  j0 :: p.2 ++ [final_update p.1]

/-- Whether every segment of a job has both stages ready — the AND of the
claimed job-level readiness invariant. -/
def jobSegmentsAllReady (j : TranslationJob) : Bool :=
  j.segments.all (fun s =>
    s.baseStage = SegmentStage.ready && s.spanStage = SegmentStage.ready)

theorem length_set_base_ready (i : Nat) (segs : List TranslationSegment) :
    (set_base_ready i segs).length = segs.length := by
  induction segs generalizing i with
  | nil => cases i <;> rfl
  | cons s rest ih =>
    cases i with
    | zero => rfl
    | succ k => simpa [set_base_ready] using ih k

theorem get?_set_base_ready (i k : Nat) (segs : List TranslationSegment) :
    (set_base_ready i segs).get? k
      = if k = i then
          (segs.get? k).map (fun s =>
            { s with baseStage := .ready, baseText := some ("«" ++ s.source ++ "»") })
        else segs.get? k := by
  induction segs generalizing i k with
  | nil =>
    cases i <;> cases k <;> simp [set_base_ready]
  | cons s rest ih =>
    cases i with
    | zero =>
      cases k with
      | zero => simp [set_base_ready]
      | succ k2 => simp [set_base_ready, Nat.succ_ne_zero]
    | succ i2 =>
      cases k with
      | zero => simp [set_base_ready, (Nat.succ_ne_zero i2).symm]
      | succ k2 =>
        have := ih i2 k2
        simpa [set_base_ready, Nat.succ_inj] using this

theorem spanStage_set_base_ready (i : Nat) (segs : List TranslationSegment)
    (h : ∀ s ∈ segs, s.spanStage = SegmentStage.pending) :
    ∀ s ∈ set_base_ready i segs, s.spanStage = SegmentStage.pending := by
  induction segs generalizing i with
  | nil => cases i <;> simp [set_base_ready]
  | cons s rest ih =>
    cases i with
    | zero =>
      intro x hx
      rcases List.mem_cons.mp hx with hx | hx
      · subst hx
        exact h s (List.mem_cons_self _ _)
      · exact h x (List.mem_cons_of_mem _ hx)
    | succ k =>
      intro x hx
      rcases List.mem_cons.mp hx with hx | hx
      · subst hx
        exact h x (List.mem_cons_self _ _)
      · exact ih k (fun y hy => h y (List.mem_cons_of_mem _ hy)) x hx

/-- Invariant of all pre-final job emissions: not ready, every span stage
still pending. -/
def mockPending (j : TranslationJob) : Prop :=
  j.ready = false ∧ ∀ s ∈ j.segments, s.spanStage = SegmentStage.pending

theorem mockPending_base_step (i : Nat) (j : TranslationJob)
    (h : mockPending j) : mockPending (base_step i j) :=
  ⟨h.1, spanStage_set_base_ready i j.segments h.2⟩

theorem spanStage_initial_segments (i : Nat) (texts : List String) :
    ∀ s ∈ initial_segments i texts, s.spanStage = SegmentStage.pending := by
  induction texts generalizing i with
  | nil => simp [initial_segments]
  | cons t rest ih =>
    intro s hs
    rcases List.mem_cons.mp hs with hs | hs
    · subst hs; rfl
    · exact ih (i + 1) s hs

theorem length_initial_segments (i : Nat) (texts : List String) :
    (initial_segments i texts).length = texts.length := by
  induction texts generalizing i with
  | nil => rfl
  | cons t rest ih => simpa [initial_segments] using ih (i + 1)

theorem mockPending_run_bases (l : List Nat) (j : TranslationJob)
    (h : mockPending j) : ∀ j2 ∈ (run_bases j l).2, mockPending j2 := by
  induction l generalizing j with
  | nil => simp [run_bases]
  | cons i rest ih =>
    intro j2 hj2
    simp only [run_bases] at hj2
    rcases List.mem_cons.mp hj2 with hj2 | hj2
    · subst hj2
      exact mockPending_base_step i j h
    · exact ih (base_step i j) (mockPending_base_step i j h) j2 hj2

theorem length_run_bases (l : List Nat) (j : TranslationJob) :
    (run_bases j l).1.segments.length = j.segments.length := by
  induction l generalizing j with
  | nil => rfl
  | cons i rest ih =>
    simp only [run_bases]
    rw [ih (base_step i j)]
    exact length_set_base_ready i j.segments

/-- Position `k` of the job's segment list has a ready base stage. -/
def baseReadyAt (j : TranslationJob) (k : Nat) : Prop :=
  ∀ s, j.segments.get? k = some s → s.baseStage = SegmentStage.ready

theorem baseReadyAt_base_step (i k : Nat) (j : TranslationJob)
    (h : baseReadyAt j k) : baseReadyAt (base_step i j) k := by
  intro s hs
  simp only [base_step] at hs
  rw [get?_set_base_ready] at hs
  by_cases hk : k = i
  · rw [if_pos hk] at hs
    cases hg : j.segments.get? k with
    | none => rw [hg] at hs; simp at hs
    | some s0 =>
      rw [hg] at hs
      simp only [Option.map_some', Option.some.injEq] at hs
      rw [← hs]
  · rw [if_neg hk] at hs
    exact h s hs

theorem baseReadyAt_base_step_self (k : Nat) (j : TranslationJob) :
    baseReadyAt (base_step k j) k := by
  intro s hs
  simp only [base_step] at hs
  rw [get?_set_base_ready, if_pos rfl] at hs
  cases hg : j.segments.get? k with
  | none => rw [hg] at hs; simp at hs
  | some s0 =>
    rw [hg] at hs
    simp only [Option.map_some', Option.some.injEq] at hs
    rw [← hs]

theorem baseReadyAt_run_bases_of (l : List Nat) (j : TranslationJob) (k : Nat)
    (h : baseReadyAt j k) : baseReadyAt (run_bases j l).1 k := by
  induction l generalizing j with
  | nil => exact h
  | cons i rest ih => exact ih (base_step i j) (baseReadyAt_base_step i k j h)

theorem baseReadyAt_run_bases_mem (l : List Nat) (j : TranslationJob) (k : Nat)
    (hin : k ∈ l) : baseReadyAt (run_bases j l).1 k := by
  induction l generalizing j with
  | nil => cases hin
  | cons i rest ih =>
    rcases List.mem_cons.mp hin with hk | hk
    · subst hk
      exact baseReadyAt_run_bases_of rest (base_step k j) k
        (baseReadyAt_base_step_self k j)
    · exact ih (base_step i j) hk

theorem jobSegmentsAllReady_final_update (j : TranslationJob)
    (h : ∀ k, k < j.segments.length → baseReadyAt j k) :
    jobSegmentsAllReady (final_update j) = true := by
  unfold jobSegmentsAllReady final_update
  rw [List.all_eq_true]
  intro s hs
  simp only [List.mem_map] at hs
  obtain ⟨s0, hs0, hmap⟩ := hs
  obtain ⟨k, hk⟩ := List.mem_iff_get?.mp hs0
  have hlt : k < j.segments.length := by
    rcases List.get?_eq_some.mp hk with ⟨hl, -⟩
    exact hl
  have hready : s0.baseStage = SegmentStage.ready := h k hlt s0 hk
  rw [← hmap]
  simp [hready]

theorem jobSegmentsAllReady_false_of_pending (j : TranslationJob)
    (hne : j.segments ≠ []) (h : ∀ s ∈ j.segments, s.spanStage = SegmentStage.pending) :
    jobSegmentsAllReady j = false := by
  cases hsegs : j.segments with
  | nil => exact absurd hsegs hne
  | cons s rest =>
    have hmem : s ∈ j.segments := by rw [hsegs]; exact List.mem_cons_self _ _
    have hspan := h s hmem
    rw [Bool.eq_false_iff]
    intro habs
    unfold jobSegmentsAllReady at habs
    rw [List.all_eq_true] at habs
    have := habs s hmem
    rw [hspan] at this
    simp at this

/-- C5 as amended: every job emitted to `onJob` by `start_mock_translation`
satisfies: if `ready` is true then every segment has both `baseStage` and
`spanStage` equal to `ready`; and conversely, for every emitted job with at
least one segment, if all segments are fully ready then `ready` is true.
(The unrestricted iff fails only for a story with zero segments, whose
initial emission has `ready = false` although the AND over no segments is
vacuously true.) -/
theorem c5_job_ready_amended (now : Nat) (storyText : String) (j : TranslationJob)
    (hj : j ∈ emitted_jobs now storyText) :
    (j.ready = true → jobSegmentsAllReady j = true)
    ∧ (j.segments ≠ [] → jobSegmentsAllReady j = true → j.ready = true) := by
  unfold emitted_jobs at hj
  rcases List.mem_cons.mp hj with hj | hj
  case inl =>
    subst hj
    refine ⟨fun habs => by simp at habs, fun hne hall => ?_⟩
    exfalso
    have hfalse := jobSegmentsAllReady_false_of_pending _ hne
      (spanStage_initial_segments 0 _)
    rw [hall] at hfalse
    cases hfalse
  case inr =>
    rcases List.mem_append.mp hj with hj | hj
    · have hpend : mockPending _ := mockPending_run_bases _ _
        ⟨rfl, spanStage_initial_segments 0 _⟩ j hj
      refine ⟨fun habs => ?_, fun hne hall => ?_⟩
      · rw [hpend.1] at habs; cases habs
      · exfalso
        have hfalse := jobSegmentsAllReady_false_of_pending j hne hpend.2
        rw [hall] at hfalse
        cases hfalse
    · rw [List.mem_singleton] at hj
      subst hj
      constructor
      · intro _
        apply jobSegmentsAllReady_final_update
        intro k hk
        apply baseReadyAt_run_bases_mem
        rw [length_run_bases, length_initial_segments] at hk
        exact List.mem_range.mpr hk
      · intro _ _
        rfl

/-- C5 counterexample: the claim states that every emitted job has
`ready` true iff every segment has both stages ready; but for an empty story
(`split_into_segments` yields no segments) the initial emission has
`ready = false` while the AND over zero segments is vacuously true. -/
theorem c5_job_ready_counterexample :
    ∃ j ∈ emitted_jobs 0 "", jobSegmentsAllReady j = true ∧ j.ready = false :=
  ⟨{ id := "job-0", segments := [], ready := false }, by decide, by decide, by decide⟩

/-- Witness for the amended C5: the initial emission for the one-segment story
`"Hi."` is among the emitted jobs, and both implications of the amended claim
hold for it. -/
theorem c5_job_ready_amended_witness :
    ({ id := "job-7", segments := initial_segments 0 ["Hi."], ready := false }
        : TranslationJob) ∈ emitted_jobs 7 "Hi."
    ∧ ((({ id := "job-7", segments := initial_segments 0 ["Hi."], ready := false }
          : TranslationJob).ready = true →
        jobSegmentsAllReady
          { id := "job-7", segments := initial_segments 0 ["Hi."], ready := false } = true)
      ∧ (({ id := "job-7", segments := initial_segments 0 ["Hi."], ready := false }
          : TranslationJob).segments ≠ [] →
        jobSegmentsAllReady
          { id := "job-7", segments := initial_segments 0 ["Hi."], ready := false } = true →
        ({ id := "job-7", segments := initial_segments 0 ["Hi."], ready := false }
          : TranslationJob).ready = true)) :=
  ⟨by decide, c5_job_ready_amended 7 "Hi." _ (by decide)⟩

/-- JS `base_text.split(/\s+/).filter(Boolean)`: the maximal non-whitespace
runs of the string (`acc` holds the current run in reverse). -/
def nonWsRuns (acc : List Char) : List Char → List (List Char)
  | [] => if acc.isEmpty then [] else [acc.reverse]
  | c :: rest =>
    if c.isWhitespace then
      if acc.isEmpty then nonWsRuns [] rest else acc.reverse :: nonWsRuns [] rest
    else nonWsRuns (c :: acc) rest

/-- The `words` list of `inject_single_span` (`src/mockTranslation.ts` line 40). -/
def wsWords (s : String) : List String := (nonWsRuns [] s.data).map (fun l => ⟨l⟩)

/-- JS `hay.indexOf(needle)` on character lists, returning `none` for `-1`. -/
def subIndex : List Char → List Char → Option Nat
  | [], needle => if needle.isEmpty then some 0 else none
  | c :: t, needle =>
    if needle.isPrefixOf (c :: t) then some 0
    else (subIndex t needle).map (fun i => i + 1)

/-- The six mock variants of a span (`src/mockTranslation.ts` `make_variants`,
lines 17-37), ids `spanId-register`. -/
def make_variants (span_id source : String) : List Variant :=
  let base := jsTrim source
  let cap := if base = "" then base else jsCapitalize base
  [{ id := span_id ++ "-neutral", register := .neutral, text := base
     note := none, difficulty := some 1 },
   { id := span_id ++ "-formal", register := .formal, text := cap
     note := some "Slightly elevated", difficulty := some 2 },
   { id := span_id ++ "-casual", register := .casual, text := jsLower base
     note := some "Relaxed", difficulty := some 1 },
   { id := span_id ++ "-colloquial", register := .colloquial, text := base ++ "…"
     note := some "Conversational", difficulty := some 2 },
   { id := span_id ++ "-literary", register := .literary, text := cap
     note := some "Tone shift", difficulty := some 3 },
   { id := span_id ++ "-vulgar", register := .vulgar, text := base ++ " (raw)"
     note := some "Restricted", difficulty := some 4 }]

/-- Span injection of the mock translator (`src/mockTranslation.ts`
`inject_single_span`, lines 39-69): choose the word at index
`min(2, words.length - 1)` (or the whole text if there are no words), and
split the base text around its first occurrence; if the chosen text is empty
or absent, the whole text becomes a single token. -/
def inject_single_span (segment_id base_text : String) : List String × Span :=
  let words := wsWords base_text
  let chosen := if words.length > 0 then words.getD (min 2 (words.length - 1)) ""
                else base_text
  let span_id := "span-" ++ segment_id
  match subIndex base_text.data chosen.data with
  | none =>
    ([base_text],
     { id := span_id, sourceText := base_text
       variants := make_variants span_id base_text, activeVariantIndex := 0 })
  | some idx =>
    if chosen = "" then
      ([base_text],
       { id := span_id, sourceText := base_text
         variants := make_variants span_id base_text, activeVariantIndex := 0 })
    else
      ([⟨base_text.data.take idx⟩, ⟨base_text.data.drop (idx + chosen.data.length)⟩],
       { id := span_id, sourceText := chosen
         variants := make_variants span_id chosen, activeVariantIndex := 0 })

/-- The token sequence built by the final timer callback
(`src/mockTranslation.ts` lines 136-151): per segment, the text before the
span, the span reference, the text after it (for a single-token fallback the
second push is a token without a value, modelled as the empty string), and a
`"\n\n"` separator between consecutive segments. -/
def build_doc_tokens : List TranslationSegment → List DocToken
  | [] => []
  | seg :: rest =>
    let base := seg.baseText.getD seg.source
    let p := inject_single_span seg.id base
    [DocToken.text (p.1.getD 0 ""), DocToken.span p.2.id, DocToken.text (p.1.getD 1 "")]
      ++ (if rest.isEmpty then [] else [DocToken.text "\n\n"])
      ++ build_doc_tokens rest

/-- The span map built by the final timer callback (same lines). -/
def build_doc_spans : List TranslationSegment → List (String × Span)
  | [] => []
  | seg :: rest =>
    let base := seg.baseText.getD seg.source
    let p := inject_single_span seg.id base
    (p.2.id, p.2) :: build_doc_spans rest

/-- The document emitted by the final timer callback. -/
def build_doc (segments : List TranslationSegment) : InteractiveDoc :=
  { tokens := build_doc_tokens segments, spans := build_doc_spans segments }

/-- An event delivered to the caller of `start_mock_translation`. -/
inductive MockEmission where
  | jobEv (j : TranslationJob)
  | docEv (d : InteractiveDoc)
deriving DecidableEq, Repr

/-- Discriminator for document deliveries. -/
def isDocEmission : MockEmission → Bool
  | .docEv _ => true
  | .jobEv _ => false

/-- One base timer callback (`src/mockTranslation.ts` lines 115-122): it runs
entirely inside `update_job`, which returns without emitting when the
`cancelled` flag is set. -/
def base_timer_emissions (cancelled : Bool) (i : Nat) (j : TranslationJob) :
    List TranslationJob :=
  if cancelled then [] else [base_step i j]

/-- The final timer callback (`src/mockTranslation.ts` lines 126-155) as the
list of deliveries it makes, each tagged with whether `cancel()` had already
been requested when the delivery happened.  The job update goes through
`update_job` and is suppressed when `cancelled` is set at entry; the document
emission is NOT guarded by the flag and always happens, reading whatever
`job` is at that point.  `cancel_during_onJob` models a consumer that invokes
`cancel()` from inside the `onJob` delivery of this very callback (clearing
timers cannot stop the already-running callback). -/
def final_timer_deliveries (cancelled : Bool) (cancel_during_onJob : Bool)
    (j : TranslationJob) : List (MockEmission × Bool) :=
  if cancelled then
    [(MockEmission.docEv (build_doc j.segments), true)]
  else
    [(MockEmission.jobEv (final_update j), false),
     (MockEmission.docEv (build_doc (final_update j).segments), cancel_during_onJob)]

/-- A one-segment job state just before the final timer fires, for the C9
example. -/
def c9ExampleJob : TranslationJob :=
  { id := "job-0"
    segments := [{ id := "seg-1", source := "Hi.", baseText := some "«Hi.»"
                   baseStage := .ready, spanStage := .pending, variantCount := 0 }]
    ready := false }

/-- C9 counterexample: the claim asserts that the final document emission
checks the cancelled flag, so that no `onDoc` callback is ever invoked after
`cancel()`; but the body of the final timer callback emits the document
unconditionally: entered with the flag already set it still delivers exactly
one document event, and when `cancel()` is requested during the callback's
own `onJob` delivery, the document event is delivered after the cancellation
(second component `true`). -/
theorem c9_cancellation_counterexample :
    ((final_timer_deliveries true false c9ExampleJob).map
        (fun p => isDocEmission p.1)) = [true]
    ∧ ((final_timer_deliveries false true c9ExampleJob).map
        (fun p => (isDocEmission p.1, p.2))) = [(false, false), (true, true)] := by
  constructor
  · rfl
  · rfl

/-- C9 as amended: job updates are suppressed by cancellation — a base timer
step whose `update_job` sees the cancelled flag emits nothing, and a job
delivery of the final callback only happens when the flag is unset at entry
and is never tagged as after-cancel; the final document emission, however,
does not check the flag: the final callback always makes exactly one document
delivery, whatever the cancellation state (pending timers being cleared is
what makes post-cancel deliveries unreachable, except when `cancel()` is
invoked from within the final callback's own `onJob` delivery, in which case
`onDoc` is still invoked). -/
theorem c9_cancellation_amended :
    (∀ (i : Nat) (j : TranslationJob), base_timer_emissions true i j = [])
    ∧ (∀ (c m : Bool) (j : TranslationJob) (p : MockEmission × Bool),
        p ∈ final_timer_deliveries c m j → isDocEmission p.1 = false →
        p.2 = false ∧ c = false)
    ∧ (∀ (c m : Bool) (j : TranslationJob),
        (final_timer_deliveries c m j).map (fun p => isDocEmission p.1)
          = if c then [true] else [false, true]) := by
  refine ⟨fun i j => rfl, ?_, ?_⟩
  · intro c m j p hp hdoc
    cases c with
    | true =>
      simp only [final_timer_deliveries, if_true] at hp
      rw [List.mem_singleton] at hp
      subst hp
      simp [isDocEmission] at hdoc
    | false =>
      simp only [final_timer_deliveries, Bool.false_eq_true, if_false] at hp
      rcases List.mem_cons.mp hp with hp | hp
      · subst hp; exact ⟨rfl, rfl⟩
      · rw [List.mem_singleton] at hp
        subst hp
        simp [isDocEmission] at hdoc
  · intro c m j
    cases c <;> rfl

/-- Witness for the amended C9 at concrete inputs: a cancelled base step emits
nothing, and the job delivery of an uncancelled final callback on
`c9ExampleJob` carries tag `false`. -/
theorem c9_cancellation_amended_witness :
    base_timer_emissions true 0 c9ExampleJob = []
    ∧ ((MockEmission.jobEv (final_update c9ExampleJob), false).2 = false
        ∧ false = false) :=
  ⟨c9_cancellation_amended.1 0 c9ExampleJob,
   c9_cancellation_amended.2.1 false false c9ExampleJob
     (MockEmission.jobEv (final_update c9ExampleJob), false)
     (by decide) (by decide)⟩

/-- A per-language translation entry of a story (`StoryTranslation` in
`src/bokaTypes.ts`). -/
structure StoryTranslation where
  language : String
  createdAt : Nat
  job : Option TranslationJob := none
  doc : Option InteractiveDoc := none
  errorMessage : Option String := none
deriving DecidableEq, Repr

/-- A persisted story (`Story` in `src/bokaTypes.ts`); the
`Record<string, StoryTranslation>` is modelled as its entry list. -/
structure Story where
  id : String
  title : String
  category : Option String := none
  createdAt : Nat
  updatedAt : Nat
  sourceText : String
  sourceLanguage : String
  translations : List (String × StoryTranslation)
deriving DecidableEq, Repr

/-- A derived practice card (`Flashcard` in `src/views/ReviewView.tsx`). -/
structure Flashcard where
  id : String
  storyId : String
  storyTitle : String
  language : String
  spanId : String
  sourceText : String
  variantId : String
  register : RegisterId
  text : String
  contextMasked : Option String := none
  note : Option String := none
deriving DecidableEq, Repr

/-- The token loop of `buildMaskedContext` (`src/views/ReviewView.tsx` lines
81-102): the target span renders as `"____"`; another span renders its
active variant, first re-directed to the first non-vulgar variant when the
content filter is on and the active variant is vulgar, with fallback to the
span's source text; a dangling reference or empty variant list renders the
ellipsis. -/
def maskedBlockText (filter : Bool) (doc : InteractiveDoc) (target : String) :
    List DocToken → String
  | [] => ""
  | .text v :: rest => v ++ maskedBlockText filter doc target rest
  | .span spanId :: rest =>
    (if spanId = target then "____"
     else
       match lookupSpan doc.spans spanId with
       | none => "…"
       | some span =>
         if span.variants.length = 0 then "…"
         else
           let idx := span.activeVariantIndex
           let idx2 :=
             if filter && (match span.variants.get? idx with
                 | some v => v.register = RegisterId.vulgar
                 | none => false) then
               match span.variants.findIdx? (fun v => v.register ≠ RegisterId.vulgar) with
               | some next => next
               | none => idx
             else idx
           match span.variants.get? idx2 with
           | some v => v.text
           | none => span.sourceText)
      ++ maskedBlockText filter doc target rest

/-- Masked context construction (`src/views/ReviewView.tsx`
`buildMaskedContext`, lines 64-107): split into blocks (the same inline loop
as `docBlocks`), find the block containing the target span, and render it
with the target blanked out; absent block yields no context. -/
def buildMaskedContext (filter : Bool) (doc : InteractiveDoc) (targetSpanId : String) :
    Option String :=
  match (docBlocks doc.tokens).find? (fun b =>
      b.any (fun t => match t with | .span id => id = targetSpanId | .text _ => false)) with
  | none => none
  | some block => some (maskedBlockText filter doc targetSpanId block)

/-- One flashcard record (`src/views/ReviewView.tsx` lines 132-146); the id is
the composite `storyId:language:spanId:variantId`; `span.sourceText || ''` is
the identity on the string model. -/
def mkCard (filter : Bool) (story : Story) (tr : StoryTranslation)
    (doc : InteractiveDoc) (spanId : String) (span : Span) (v : Variant) : Flashcard :=
  { id := story.id ++ ":" ++ tr.language ++ ":" ++ spanId ++ ":" ++ v.id
    storyId := story.id
    storyTitle := story.title
    language := tr.language
    spanId := spanId
    sourceText := span.sourceText
    variantId := v.id
    register := v.register
    text := v.text
    contextMasked := buildMaskedContext filter doc spanId
    note := v.note }

/-- The per-variant emission step of `allCards` (`src/views/ReviewView.tsx`
lines 129-147): skip an empty or whitespace-only text, skip vulgar variants
when the content filter is on, and otherwise emit one card. -/
def variantCard (filter : Bool) (story : Story) (tr : StoryTranslation)
    (doc : InteractiveDoc) (spanId : String) (span : Span) (v : Variant) :
    Option Flashcard :=
  if v.text = "" then none
  else if jsTrim v.text = "" then none
  else if filter = true ∧ v.register = RegisterId.vulgar then none
  else some (mkCard filter story tr doc spanId span v)

/-- The unsorted card accumulation of `allCards` (`src/views/ReviewView.tsx`
lines 120-150): for every story, for every translation value, for every span
entry of a non-null document, for every variant, the `variantCard` emission. -/
def buildCards (filter : Bool) (stories : List Story) : List Flashcard :=
  stories.flatMap (fun story =>
    (story.translations.map (fun e => e.2)).flatMap (fun tr =>
      match tr.doc with
      | none => []
      | some doc =>
        doc.spans.flatMap (fun se =>
          se.2.variants.filterMap (fun v =>
            variantCard filter story tr doc se.1 se.2 v))))

/-- The sort comparator of `allCards` (`src/views/ReviewView.tsx` lines
151-155), parameterized by the host's `String.prototype.localeCompare`
(`lc`), whose ordering is locale-dependent and outside this repository. -/
def cardCompare (lc : String → String → Int) (a b : Flashcard) : Int :=
  if ¬ a.storyTitle = b.storyTitle then lc a.storyTitle b.storyTitle
  else if ¬ a.language = b.language then lc a.language b.language
  else lc a.sourceText b.sourceText

/-- Stable insertion of `x` into `l`: `x` goes before the first element it
does not strictly follow. -/
def insertSorted (cmp : Flashcard → Flashcard → Int) (x : Flashcard) :
    List Flashcard → List Flashcard
  | [] => [x]
  | y :: ys => if cmp x y ≤ 0 then x :: y :: ys else y :: insertSorted cmp x ys

/-- `Array.prototype.sort` with a comparator, which ECMA-262 requires to be
stable, modelled as stable insertion sort (for a consistent comparator every
stable sort produces the same list). -/
def sortByCmp (cmp : Flashcard → Flashcard → Int) : List Flashcard → List Flashcard
  | [] => []
  | x :: xs => insertSorted cmp x (sortByCmp cmp xs)

/-- The sorted flashcard list (`src/views/ReviewView.tsx` `allCards`, lines
120-157). -/
def allCards (lc : String → String → Int) (filter : Bool) (stories : List Story) :
    List Flashcard :=
  sortByCmp (cardCompare lc) (buildCards filter stories)

/-- The default (codepoint-ordered) string comparison, as a comparator; this
is what the claim's "case-sensitive default string comparison" denotes. -/
def lcDefault (a b : String) : Int :=
  match compare a b with
  | .lt => -1
  | .eq => 0
  | .gt => 1

/-- A model of the common ICU default behaviour of `localeCompare` on the
strings of interest: primary strength compares case-insensitively (e.g.
`'apple' < 'Banana'`, where codepoint order has `'B' < 'a'`). -/
def lcCaseFold (a b : String) : Int := lcDefault (jsLower a) (jsLower b)

theorem insertSorted_perm (cmp : Flashcard → Flashcard → Int) (x : Flashcard)
    (l : List Flashcard) : (insertSorted cmp x l).Perm (x :: l) := by
  induction l with
  | nil => exact List.Perm.refl _
  | cons y ys ih =>
    unfold insertSorted
    by_cases h : cmp x y ≤ 0
    · rw [if_pos h]
    · rw [if_neg h]
      exact (List.Perm.cons y ih).trans (List.Perm.swap x y ys)

theorem sortByCmp_perm (cmp : Flashcard → Flashcard → Int) (l : List Flashcard) :
    (sortByCmp cmp l).Perm l := by
  induction l with
  | nil => exact List.Perm.refl _
  | cons x xs ih =>
    exact (insertSorted_perm cmp x (sortByCmp cmp xs)).trans (List.Perm.cons x ih)

theorem head?_insertSorted (cmp : Flashcard → Flashcard → Int) (x y : Flashcard)
    (ys : List Flashcard) :
    (insertSorted cmp x (y :: ys)).head? = some (if cmp x y ≤ 0 then x else y) := by
  unfold insertSorted
  by_cases h : cmp x y ≤ 0
  · rw [if_pos h, if_pos h]; rfl
  · rw [if_neg h, if_neg h]; rfl

theorem chain'_insertSorted (cmp : Flashcard → Flashcard → Int)
    (hcoh : ∀ a b : Flashcard, 0 < cmp a b → cmp b a ≤ 0) (x : Flashcard)
    (l : List Flashcard) (h : List.Chain' (fun a b => cmp a b ≤ 0) l) :
    List.Chain' (fun a b => cmp a b ≤ 0) (insertSorted cmp x l) := by
  induction l with
  | nil => simp [insertSorted]
  | cons y ys ih =>
    unfold insertSorted
    by_cases hxy : cmp x y ≤ 0
    · rw [if_pos hxy]
      exact List.chain'_cons'.mpr ⟨fun z hz => by
        rw [List.head?_cons, Option.mem_some_iff] at hz
        rw [← hz]; exact hxy, h⟩
    · rw [if_neg hxy]
      have hyx : cmp y x ≤ 0 := hcoh x y (Int.not_le.mp hxy)
      obtain ⟨hhead, htail⟩ := List.chain'_cons'.mp h
      refine List.chain'_cons'.mpr ⟨?_, ih htail⟩
      intro z hz
      cases ys with
      | nil =>
        simp only [insertSorted, List.head?_cons, Option.mem_some_iff] at hz
        rw [← hz]; exact hyx
      | cons z0 zs =>
        rw [head?_insertSorted, Option.mem_some_iff] at hz
        by_cases hxz : cmp x z0 ≤ 0
        · rw [if_pos hxz] at hz
          rw [← hz]; exact hyx
        · rw [if_neg hxz] at hz
          rw [← hz]
          exact hhead z0 rfl

theorem chain'_sortByCmp (cmp : Flashcard → Flashcard → Int)
    (hcoh : ∀ a b : Flashcard, 0 < cmp a b → cmp b a ≤ 0) (l : List Flashcard) :
    List.Chain' (fun a b => cmp a b ≤ 0) (sortByCmp cmp l) := by
  induction l with
  | nil => simp [sortByCmp]
  | cons x xs ih => exact chain'_insertSorted cmp hcoh x (sortByCmp cmp xs) ih

theorem filter_insertSorted_neg (cmp : Flashcard → Flashcard → Int) (x : Flashcard)
    (P : Flashcard → Bool) (hx : P x = false) (l : List Flashcard) :
    (insertSorted cmp x l).filter P = l.filter P := by
  induction l with
  | nil => simp [insertSorted, hx]
  | cons y ys ih =>
    unfold insertSorted
    by_cases h : cmp x y ≤ 0
    · rw [if_pos h, List.filter_cons, hx]
      simp
    · rw [if_neg h, List.filter_cons, List.filter_cons, ih]

theorem filter_insertSorted_pos (cmp : Flashcard → Flashcard → Int) (x : Flashcard)
    (P : Flashcard → Bool) (hx : P x = true)
    (hle : ∀ b : Flashcard, P b = true → cmp x b ≤ 0) (l : List Flashcard) :
    (insertSorted cmp x l).filter P = x :: l.filter P := by
  induction l with
  | nil => simp [insertSorted, hx]
  | cons y ys ih =>
    unfold insertSorted
    by_cases h : cmp x y ≤ 0
    · rw [if_pos h, List.filter_cons, hx]
      simp
    · rw [if_neg h]
      have hPy : P y = false := by
        cases hy : P y with
        | false => rfl
        | true => exact absurd (hle y hy) h
      rw [List.filter_cons, hPy, List.filter_cons, hPy]
      simpa using ih

theorem sortByCmp_filter_stable (cmp : Flashcard → Flashcard → Int)
    (P : Flashcard → Bool)
    (hclass : ∀ a b : Flashcard, P a = true → P b = true → cmp a b ≤ 0) :
    ∀ l : List Flashcard, (sortByCmp cmp l).filter P = l.filter P := by
  intro l
  induction l with
  | nil => rfl
  | cons x xs ih =>
    unfold sortByCmp
    cases hx : P x with
    | true =>
      rw [filter_insertSorted_pos cmp x P hx (fun b hb => hclass x b hx hb), ih,
        List.filter_cons, hx]
      simp
    | false =>
      rw [filter_insertSorted_neg cmp x P hx, ih, List.filter_cons, hx]
      simp

theorem cardCompare_coherent (lc : String → String → Int)
    (h : ∀ a b : String, 0 < lc a b → lc b a ≤ 0) :
    ∀ c d : Flashcard, 0 < cardCompare lc c d → cardCompare lc d c ≤ 0 := by
  intro c d hcd
  unfold cardCompare at hcd ⊢
  by_cases ht : c.storyTitle = d.storyTitle
  · rw [if_neg (fun hne => hne ht)] at hcd
    rw [if_neg (fun hne => hne ht.symm)]
    by_cases hl : c.language = d.language
    · rw [if_neg (fun hne => hne hl)] at hcd
      rw [if_neg (fun hne => hne hl.symm)]
      exact h _ _ hcd
    · rw [if_pos (fun heq => hl heq)] at hcd
      rw [if_pos (fun heq => hl heq.symm)]
      exact h _ _ hcd
  · rw [if_pos (fun heq => ht heq)] at hcd
    rw [if_pos (fun heq => ht heq.symm)]
    exact h _ _ hcd

/-- Story with one one-variant span, used by the C8 examples. -/
def c8Story (sid title : String) : Story :=
  { id := sid, title := title, category := none, createdAt := 0, updatedAt := 0
    sourceText := "w", sourceLanguage := "en"
    translations :=
      [("fr", { language := "fr", createdAt := 0, job := none
                doc := some
                  { tokens := [DocToken.span "s"]
                    spans := [("s", { id := "s", sourceText := "w"
                                      variants := [{ id := "v", register := RegisterId.neutral
                                                     text := "t" }]
                                      activeVariantIndex := 0 })] }
                errorMessage := none })] }

/-- C8 counterexample: the claim says the list is sorted by case-sensitive
default (codepoint) string comparison, but the code sorts with the host's
`localeCompare`, which is locale-dependent; under the common ICU default
ordering (modelled by case-folding primary strength, where
`'apple' < 'Banana'`) the resulting list is not sorted by the claimed
default comparison, since codepoint order has `"Banana" < "apple"`. -/
theorem c8_sort_counterexample :
    ¬ List.Chain' (fun a b => cardCompare lcDefault a b ≤ 0)
        (allCards lcCaseFold false [c8Story "s1" "Banana", c8Story "s2" "apple"]) := by
  intro hchain
  have hL : allCards lcCaseFold false [c8Story "s1" "Banana", c8Story "s2" "apple"]
      = [{ id := "s2:fr:s:v", storyId := "s2", storyTitle := "apple", language := "fr"
           spanId := "s", sourceText := "w", variantId := "v"
           register := RegisterId.neutral, text := "t"
           contextMasked := some "____", note := none },
         { id := "s1:fr:s:v", storyId := "s1", storyTitle := "Banana", language := "fr"
           spanId := "s", sourceText := "w", variantId := "v"
           register := RegisterId.neutral, text := "t"
           contextMasked := some "____", note := none }] := by decide
  rw [hL] at hchain
  have h2 := (List.chain'_cons'.mp hchain).1
    { id := "s1:fr:s:v", storyId := "s1", storyTitle := "Banana", language := "fr"
      spanId := "s", sourceText := "w", variantId := "v"
      register := RegisterId.neutral, text := "t"
      contextMasked := some "____", note := none } rfl
  exact absurd h2 (by decide)

/-- C8 as amended: `allCards` is the stable sort of the derived card list
under the comparator "localeCompare on story title if the titles differ, else
localeCompare on language if the languages differ, else localeCompare on span
source text" — a locale-dependent comparison, not the default codepoint
comparison.  For every comparator: the output is a permutation of the derived
list; whenever the comparator's signs are coherent (a strictly positive
comparison is strictly negative in reverse), the output is ascending under
the composite comparator (every adjacent pair compares `≤ 0`); the sort is
stable — any class of pairwise-tied cards keeps its derivation order; and
concretely (with codepoint comparison standing in for the host collation) the
cards of a story titled `"Alpha"` precede those of `"Bravo"`. -/
theorem c8_sort_amended :
    (∀ (lc : String → String → Int) (filter : Bool) (stories : List Story),
        (allCards lc filter stories).Perm (buildCards filter stories))
    ∧ (∀ lc : String → String → Int,
        (∀ a b : String, 0 < lc a b → lc b a ≤ 0) →
        ∀ (filter : Bool) (stories : List Story),
        List.Chain' (fun a b => cardCompare lc a b ≤ 0) (allCards lc filter stories))
    ∧ (∀ (cmp : Flashcard → Flashcard → Int) (P : Flashcard → Bool),
        (∀ a b : Flashcard, P a = true → P b = true → cmp a b ≤ 0) →
        ∀ l : List Flashcard, (sortByCmp cmp l).filter P = l.filter P)
    ∧ (allCards lcDefault false [c8Story "s1" "Bravo", c8Story "s2" "Alpha"]).map
        (fun c => c.storyTitle) = ["Alpha", "Bravo"] := by
  refine ⟨?_, ?_, sortByCmp_filter_stable, ?_⟩
  · intro lc filter stories
    exact sortByCmp_perm (cardCompare lc) (buildCards filter stories)
  · intro lc hcoh filter stories
    exact chain'_sortByCmp (cardCompare lc) (cardCompare_coherent lc hcoh) _
  · decide

/-- Witness for the amended C8 at concrete inputs: the permutation and
sortedness statements applied to the two-story example with the codepoint
comparator (whose sign coherence is immediate), and the stability statement
applied to an always-tied comparator. -/
theorem c8_sort_amended_witness :
    (allCards lcDefault false [c8Story "s1" "Bravo", c8Story "s2" "Alpha"]).Perm
        (buildCards false [c8Story "s1" "Bravo", c8Story "s2" "Alpha"])
    ∧ List.Chain' (fun a b => cardCompare lcDefault a b ≤ 0)
        (allCards lcDefault false [c8Story "s1" "Bravo", c8Story "s2" "Alpha"])
    ∧ (sortByCmp (fun _ _ => 0) (buildCards false [c8Story "s1" "Bravo"])).filter
        (fun _ => true) = (buildCards false [c8Story "s1" "Bravo"]).filter (fun _ => true) :=
  ⟨c8_sort_amended.1 lcDefault false [c8Story "s1" "Bravo", c8Story "s2" "Alpha"],
   c8_sort_amended.2.1 lcDefault
     (by
       intro a b hab
       unfold lcDefault at hab ⊢
       cases hc : compare a b with
       | lt => rw [hc] at hab; cases hab
       | eq =>
         rw [hc] at hab; cases hab
       | gt =>
         have : compare b a = Ordering.lt := by
           rw [compare_gt_iff_gt] at hc
           rw [compare_lt_iff_lt]
           exact hc
         rw [this]
         decide)
     false [c8Story "s1" "Bravo", c8Story "s2" "Alpha"],
   c8_sort_amended.2.2.1 (fun _ _ => 0) (fun _ => true)
     (fun _ _ _ _ => le_refl 0) (buildCards false [c8Story "s1" "Bravo"])⟩

theorem variantCard_eq_some_iff (filter : Bool) (story : Story) (tr : StoryTranslation)
    (doc : InteractiveDoc) (spanId : String) (span : Span) (v : Variant) (c : Flashcard) :
    variantCard filter story tr doc spanId span v = some c
      ↔ (¬ v.text = "" ∧ ¬ jsTrim v.text = ""
          ∧ ¬ (filter = true ∧ v.register = RegisterId.vulgar)
          ∧ c = mkCard filter story tr doc spanId span v) := by
  unfold variantCard
  by_cases h1 : v.text = ""
  · simp [h1]
  · by_cases h2 : jsTrim v.text = ""
    · simp [h1, h2]
    · by_cases h3 : filter = true ∧ v.register = RegisterId.vulgar
      · simp [h1, h2, h3]
      · simp [h1, h2, h3, eq_comm]

theorem mem_buildCards_iff (filter : Bool) (stories : List Story) (c : Flashcard) :
    c ∈ buildCards filter stories
      ↔ ∃ story ∈ stories, ∃ te ∈ story.translations, ∃ doc : InteractiveDoc,
          te.2.doc = some doc
          ∧ ∃ se ∈ doc.spans, ∃ v ∈ se.2.variants,
            ¬ v.text = "" ∧ ¬ jsTrim v.text = ""
            ∧ ¬ (filter = true ∧ v.register = RegisterId.vulgar)
            ∧ c = mkCard filter story te.2 doc se.1 se.2 v := by
  unfold buildCards
  constructor
  · intro hc
    obtain ⟨story, hstory, hc⟩ := List.mem_flatMap.mp hc
    obtain ⟨tr, htr, hc⟩ := List.mem_flatMap.mp hc
    obtain ⟨te, hte, htr2⟩ := List.mem_map.mp htr
    subst htr2
    cases hdoc : te.2.doc with
    | none =>
      rw [hdoc] at hc
      exact absurd hc (List.not_mem_nil c)
    | some doc =>
      rw [hdoc] at hc
      obtain ⟨se, hse, hc⟩ := List.mem_flatMap.mp hc
      obtain ⟨v, hv, hvc⟩ := List.mem_filterMap.mp hc
      obtain ⟨h1, h2, h3, hceq⟩ :=
        (variantCard_eq_some_iff filter story te.2 doc se.1 se.2 v c).mp hvc
      exact ⟨story, hstory, te, hte, doc, hdoc, se, hse, v, hv, h1, h2, h3, hceq⟩
  · rintro ⟨story, hstory, te, hte, doc, hdoc, se, hse, v, hv, h1, h2, h3, hceq⟩
    refine List.mem_flatMap.mpr ⟨story, hstory, ?_⟩
    refine List.mem_flatMap.mpr ⟨te.2, List.mem_map.mpr ⟨te, hte, rfl⟩, ?_⟩
    rw [hdoc]
    refine List.mem_flatMap.mpr ⟨se, hse, ?_⟩
    exact List.mem_filterMap.mpr
      ⟨v, hv, (variantCard_eq_some_iff filter story te.2 doc se.1 se.2 v c).mpr
        ⟨h1, h2, h3, hceq⟩⟩

theorem filterMap_variantCard_ids (story : Story) (tr : StoryTranslation)
    (doc : InteractiveDoc) (spanId : String) (span : Span) (vs : List Variant) :
    ((vs.filterMap (fun v => variantCard true story tr doc spanId span v)).map
        (fun c => c.id))
      = (((vs.filterMap (fun v => variantCard false story tr doc spanId span v)).filter
          (fun c => ¬ c.register = RegisterId.vulgar)).map (fun c => c.id)) := by
  induction vs with
  | nil => rfl
  | cons v vs ih =>
    rw [List.filterMap_cons, List.filterMap_cons]
    by_cases h1 : v.text = ""
    · have e1 : variantCard true story tr doc spanId span v = none := by
        simp [variantCard, h1]
      have e2 : variantCard false story tr doc spanId span v = none := by
        simp [variantCard, h1]
      rw [e1, e2]
      exact ih
    · by_cases h2 : jsTrim v.text = ""
      · have e1 : variantCard true story tr doc spanId span v = none := by
          simp [variantCard, h1, h2]
        have e2 : variantCard false story tr doc spanId span v = none := by
          simp [variantCard, h1, h2]
        rw [e1, e2]
        exact ih
      · by_cases h3 : v.register = RegisterId.vulgar
        · have e1 : variantCard true story tr doc spanId span v = none := by
            simp [variantCard, h1, h2, h3]
          have e2 : variantCard false story tr doc spanId span v
              = some (mkCard false story tr doc spanId span v) := by
            simp [variantCard, h1, h2]
          rw [e1, e2, List.filter_cons]
          have hreg : (decide ¬ (mkCard false story tr doc spanId span v).register
              = RegisterId.vulgar) = false := by
            simp [mkCard, h3]
          rw [hreg]
          simpa using ih
        · have e1 : variantCard true story tr doc spanId span v
              = some (mkCard true story tr doc spanId span v) := by
            simp [variantCard, h1, h2, h3]
          have e2 : variantCard false story tr doc spanId span v
              = some (mkCard false story tr doc spanId span v) := by
            simp [variantCard, h1, h2]
          rw [e1, e2, List.filter_cons]
          have hreg : (decide ¬ (mkCard false story tr doc spanId span v).register
              = RegisterId.vulgar) = true := by
            simp [mkCard, h3]
          rw [hreg]
          simp only [if_true, List.map_cons]
          exact congrArg (fun t =>
            (mkCard true story tr doc spanId span v).id :: t) ih

theorem buildCards_true_ids (stories : List Story) :
    (buildCards true stories).map (fun c => c.id)
      = ((buildCards false stories).filter
          (fun c => ¬ c.register = RegisterId.vulgar)).map (fun c => c.id) := by
  unfold buildCards
  rw [List.map_flatMap, List.filter_flatMap, List.map_flatMap]
  apply congrArg (List.flatMap stories)
  funext story
  rw [List.map_flatMap, List.filter_flatMap, List.map_flatMap]
  apply congrArg
  funext tr
  cases tr.doc with
  | none => rfl
  | some doc =>
    simp only [List.map_flatMap, List.filter_flatMap]
    apply congrArg
    funext se
    exact filterMap_variantCard_ids story tr doc se.1 se.2 se.2.variants

/-- Variants of the C6 example span: a neutral `"ok"` and a vulgar `"x"`. -/
def c6Vn : Variant := { id := "vn", register := RegisterId.neutral, text := "ok" }

/-- The vulgar variant of the C6 example span. -/
def c6Vv : Variant := { id := "vv", register := RegisterId.vulgar, text := "x" }

/-- The C6 example span `sx`. -/
def c6Span : Span :=
  { id := "sx", sourceText := "sx-src", variants := [c6Vn, c6Vv], activeVariantIndex := 0 }

/-- The C6 example document. -/
def c6Doc : InteractiveDoc :=
  { tokens := [DocToken.span "sx"], spans := [("sx", c6Span)] }

/-- The C6 example translation. -/
def c6Tr : StoryTranslation :=
  { language := "fr", createdAt := 0, job := none, doc := some c6Doc, errorMessage := none }

/-- The C6 example story. -/
def c6Story : Story :=
  { id := "st", title := "T", category := none, createdAt := 0, updatedAt := 0
    sourceText := "s", sourceLanguage := "en", translations := [("fr", c6Tr)] }

/-- C6: flashcard derivation emits exactly one card per
(story, translation-with-document, span, variant) whose text is non-empty
after trimming and, when filtering is on, whose register is not vulgar
(the membership characterization); each card's identity is the composite
`storyId:language:spanId:variantId`, which does not depend on the filter
flag, so the retained cards' identities agree between the filtered and the
unfiltered runs (the filtered run's ids are exactly the unfiltered run's ids
with the vulgar cards removed); concretely, the span with variants
`[{neutral,"ok"},{vulgar,"x"}]` yields 2 cards with filtering off and 1 card
with filtering on, with the retained identity unchanged. -/
theorem c6_flashcard_derivation :
    (∀ (filter : Bool) (stories : List Story) (c : Flashcard),
        c ∈ buildCards filter stories
          ↔ ∃ story ∈ stories, ∃ te ∈ story.translations, ∃ doc : InteractiveDoc,
              te.2.doc = some doc
              ∧ ∃ se ∈ doc.spans, ∃ v ∈ se.2.variants,
                ¬ v.text = "" ∧ ¬ jsTrim v.text = ""
                ∧ ¬ (filter = true ∧ v.register = RegisterId.vulgar)
                ∧ c = mkCard filter story te.2 doc se.1 se.2 v)
    ∧ (∀ (filter : Bool) (story : Story) (tr : StoryTranslation) (doc : InteractiveDoc)
        (spanId : String) (span : Span) (v : Variant),
        (mkCard filter story tr doc spanId span v).id
          = story.id ++ ":" ++ tr.language ++ ":" ++ spanId ++ ":" ++ v.id)
    ∧ (∀ stories : List Story,
        (buildCards true stories).map (fun c => c.id)
          = ((buildCards false stories).filter
              (fun c => ¬ c.register = RegisterId.vulgar)).map (fun c => c.id))
    ∧ (allCards lcDefault false [c6Story]).map (fun c => (c.id, c.text))
        = [("st:fr:sx:vn", "ok"), ("st:fr:sx:vv", "x")]
    ∧ (allCards lcDefault true [c6Story]).map (fun c => (c.id, c.text))
        = [("st:fr:sx:vn", "ok")] := by
  refine ⟨mem_buildCards_iff, fun _ _ _ _ _ _ _ => rfl, buildCards_true_ids,
    by decide, by decide⟩

/-- Witness for C6: the membership characterization instantiated on the
example story concludes that the neutral card is derived. -/
theorem c6_flashcard_derivation_witness :
    mkCard false c6Story c6Tr c6Doc "sx" c6Span c6Vn ∈ buildCards false [c6Story] :=
  (c6_flashcard_derivation.1 false [c6Story]
      (mkCard false c6Story c6Tr c6Doc "sx" c6Span c6Vn)).mpr
    ⟨c6Story, by decide, ("fr", c6Tr), by decide, c6Doc, rfl, ("sx", c6Span), by decide,
     c6Vn, by decide, by decide, by decide, by decide, rfl⟩

end Callibella
